import Mathlib

/-!
Verification of the GravLib motion/localization core against its specification.

The Rust sources are shallowly embedded over the rational numbers: every `f64`
value is modelled as a `ℚ` (exact arithmetic, ignoring floating-point rounding
wherever no claim turns on it; the one claim that does turn on rounding — the
termination of the `angle_error` normalization loops — is settled against the
explicit binary64 rounding model `fl64`).  Calls to the transcendental
libm functions (`sin`, `cos`, `atan2`, `hypot`) are modelled as explicit
function parameters so that every definition stays computable; the claims
proved below either hold for all instantiations of those parameters or only
evaluate them at arguments where their exact value is known (e.g.
`hypot 0 0 = 0`).  Wall-clock time (`Instant`) is modelled as a rational
timestamp passed to each stateful `update`, with `duration_since` modelled as
the nonnegative part of the timestamp difference.
-/

namespace GravLib

/-- Exact rational value of the IEEE-754 double `core::f64::consts::PI`
(`0x400921FB54442D18`). -/
def pi64 : ℚ := 884279719003555 / 281474976710656

/-- Exact rational value of `f64::EPSILON` (2⁻⁵²). -/
def f64Epsilon : ℚ := 1 / 4503599627370496

theorem pi64_pos : 0 < pi64 := by norm_num [pi64]

/-- Model of Rust's `f64::signum` for the non-NaN case: `1.0` for positive
values and `+0.0`, `-1.0` for negative values. -/
def rsignum (x : ℚ) : ℚ := if x < 0 then -1 else 1

/-! ## `src/GravLib/pid.rs` -/

/-- PID gains, from `pid.rs` (`Gains { k_p, k_i, k_d }`). -/
structure Gains where
  k_p : ℚ
  k_i : ℚ
  k_d : ℚ
deriving DecidableEq

/-- State of a `PID` controller, from `pid.rs`.  `m_prev_time` holds the
timestamp of the previous `update` call (`None` before the first call or
after `reset`). -/
structure PID where
  m_gains : Gains
  m_sign_flip_reset : Bool
  m_windup_range : ℚ
  m_previous_error : ℚ
  m_integral : ℚ
  m_prev_time : Option ℚ
  m_has_windup_range : Bool
  m_inv_windup_range : ℚ
  m_previous_output : Option ℚ
  m_slew_rate : ℚ
deriving DecidableEq

/-- Constructor `PID::new` (no slew-rate limiting). -/
def PID.new (k_p k_i k_d windup_range : ℚ) (sign_flip_reset : Bool) : PID :=
  { m_gains := ⟨k_p, k_i, k_d⟩
    m_windup_range := windup_range
    m_sign_flip_reset := sign_flip_reset
    m_previous_error := 0
    m_integral := 0
    m_prev_time := none
    m_has_windup_range := windup_range ≠ 0
    m_inv_windup_range := if windup_range ≠ 0 then 1 / windup_range else 0
    m_previous_output := none
    m_slew_rate := 0 }

/-- Constructor `PID::new_with_slew`. -/
def PID.new_with_slew (k_p k_i k_d windup_range : ℚ) (sign_flip_reset : Bool)
    (slew_rate : ℚ) : PID :=
  { PID.new k_p k_i k_d windup_range sign_flip_reset with m_slew_rate := slew_rate }

/-- Accessor `PID::integral` (the accumulated integral, for debugging). -/
def PID.integral (s : PID) : ℚ := s.m_integral

/-- Accessor `PID::previous_error`. -/
def PID.previous_error (s : PID) : ℚ := s.m_previous_error

/-- Elapsed seconds since the previous `update` call: `0.0` on the first call,
otherwise `now.duration_since(prev)` (a `Duration`, hence nonnegative). -/
def PID.dtSecs (s : PID) (now : ℚ) : ℚ :=
  match s.m_prev_time with
  | some prev => max (now - prev) 0
  | none => 0

/-- Derivative term of `PID::update`: `(error - prev_error) / dt` guarded by
`dt > f64::EPSILON`. -/
def PID.derivative (s : PID) (dt_secs error : ℚ) : ℚ :=
  if f64Epsilon < dt_secs then (error - s.m_previous_error) / dt_secs else 0

/-- Slew-rate limiting stage at the end of `PID::update`: clamps the change of
`output` relative to the previous output to `slew_rate * dt`. -/
def PID.applySlew (s : PID) (dt_secs output : ℚ) : ℚ :=
  if 0 < s.m_slew_rate then
    match s.m_previous_output with
    | some prev_output =>
        if s.m_slew_rate * dt_secs < |output - prev_output| then
          prev_output + rsignum (output - prev_output) * (s.m_slew_rate * dt_secs)
        else output
    | none => output
  else output

/-- Integral accumulation of `PID::update`: accumulate `error * dt`, then zero
on a sign flip (if enabled), then zero if the error is outside the anti-windup
range. -/
def PID.nextIntegral (s : PID) (dt_secs error : ℚ) : ℚ :=
  let acc := s.m_integral + error * dt_secs
  let acc :=
    if s.m_sign_flip_reset ∧ ((0 < error) ≠ (0 < s.m_previous_error)) ∧
        error * s.m_previous_error < 0 then 0
    else acc
  if s.m_has_windup_range = true ∧ s.m_windup_range < |error| then 0 else acc

/-- One call of `PID::update(error)` at wall-clock time `now`; returns the
output together with the updated controller state. -/
def PID.update (s : PID) (now error : ℚ) : ℚ × PID :=
  let dt_secs := s.dtSecs now
  let derivative := s.derivative dt_secs error
  let integral := s.nextIntegral dt_secs error
  let output := s.applySlew dt_secs
    (error * s.m_gains.k_p + integral * s.m_gains.k_i + derivative * s.m_gains.k_d)
  (output,
    { s with
      m_prev_time := some now
      m_previous_error := error
      m_integral := integral
      m_previous_output := some output })

/-- Method `PID::reset`. -/
def PID.reset (s : PID) : PID :=
  { s with
    m_previous_error := 0
    m_integral := 0
    m_previous_output := none
    m_prev_time := none }

/-! ## `src/GravLib/drivebase/exit_conditions.rs` -/

/-- Result of `ExitCondition::update`, from `exit_conditions.rs`. -/
inductive ExitConditionState where
  | NotMet
  | Met
  | Timeout
deriving DecidableEq

/-- State of an `ExitCondition`.  `timeout` is a `Duration` built from
milliseconds, hence nonnegative; timestamps share the unit of the `now`
arguments passed to `update`. -/
structure ExitCondition where
  threshold : ℚ
  timeout : ℚ
  start_time : Option ℚ
  condition_met_start : Option ℚ
deriving DecidableEq

/-- Constructor `ExitCondition::new(threshold, timeout_ms)`. -/
def ExitCondition.new (threshold : ℚ) (timeout_ms : ℕ) : ExitCondition :=
  { threshold := threshold
    timeout := timeout_ms
    start_time := none
    condition_met_start := none }

/-- One call of `ExitCondition::update(current_value)` at wall-clock time
`now`; returns the condition state together with the updated record. -/
def ExitCondition.update (s : ExitCondition) (now current_value : ℚ) :
    ExitConditionState × ExitCondition :=
  let s := if s.start_time = none then { s with start_time := some now } else s
  if |current_value| ≤ s.threshold then
    match s.condition_met_start with
    | none => (ExitConditionState.NotMet, { s with condition_met_start := some now })
    | some met_start =>
        if s.timeout ≤ max (now - met_start) 0 then (ExitConditionState.Met, s)
        else (ExitConditionState.NotMet, s)
  else
    (ExitConditionState.NotMet, { s with condition_met_start := none })

/-- Method `ExitCondition::reset`. -/
def ExitCondition.reset (s : ExitCondition) : ExitCondition :=
  { s with start_time := none, condition_met_start := none }

/-- Aggregate `ExitConditions { small_error, large_error, velocity }`. -/
structure ExitConditions where
  small_error : ExitCondition
  large_error : ExitCondition
  velocity : Option ExitCondition
deriving DecidableEq

/-- Constructor `ExitConditions::new`. -/
def ExitConditions.new (small_threshold : ℚ) (small_timeout_ms : ℕ)
    (large_threshold : ℚ) (large_timeout_ms : ℕ) : ExitConditions :=
  { small_error := ExitCondition.new small_threshold small_timeout_ms
    large_error := ExitCondition.new large_threshold large_timeout_ms
    velocity := none }

/-- Default `ExitConditions` (1 inch / 100 ms small, 3 inch / 500 ms large). -/
def ExitConditions.default : ExitConditions := ExitConditions.new 1 100 3 500

/-- Method `ExitConditions::should_exit(error, velocity)` at time `now`:
updates all conditions and ORs their `Met` results. -/
def ExitConditions.should_exit (s : ExitConditions) (now error : ℚ)
    (velocity : Option ℚ) : Bool × ExitConditions :=
  let small := s.small_error.update now error
  let large := s.large_error.update now error
  let vel :=
    match s.velocity, velocity with
    | some vel_condition, some v =>
        let r := vel_condition.update now v
        (decide (r.1 = ExitConditionState.Met), some r.2)
    | v, _ => (false, v)
  (decide (small.1 = ExitConditionState.Met) ||
     decide (large.1 = ExitConditionState.Met) || vel.1,
   { small_error := small.2, large_error := large.2, velocity := vel.2 })

/-- Method `ExitConditions::reset`. -/
def ExitConditions.reset (s : ExitConditions) : ExitConditions :=
  { small_error := s.small_error.reset
    large_error := s.large_error.reset
    velocity := s.velocity.map ExitCondition.reset }

/-! ## `src/GravLib/drivebase/motions/motion_controller.rs` -/

/-- The first normalization loop of `angle_error`
(`while error > PI { error -= 2.0 * PI }`) in exact rational arithmetic:
each pass subtracts exactly 2π, which lowers the integer ceiling of
`(e - π) / 2π` by one, so this exact model is total.  The `f64` loop of the
source does not share this totality — the rounded subtraction can make no
progress at large magnitudes; that effect is modelled separately by `fl64`
and `wrapAbovePiF64` below. -/
def wrapAbovePi (e : ℚ) : ℚ :=
  if pi64 < e then wrapAbovePi (e - 2 * pi64) else e
termination_by (⌈(e - pi64) / (2 * pi64)⌉).toNat
decreasing_by
  rename_i h
  have hpi : 0 < pi64 := pi64_pos
  have h2 : (e - 2 * pi64 - pi64) / (2 * pi64) = (e - pi64) / (2 * pi64) - 1 := by
    field_simp
    ring
  have h3 : 0 < ⌈(e - pi64) / (2 * pi64)⌉ :=
    Int.ceil_pos.mpr (div_pos (by linarith) (by linarith))
  rw [h2, Int.ceil_sub_one]
  omega

/-- The second normalization loop of `angle_error`
(`while error < -PI { error += 2.0 * PI }`) in exact rational arithmetic
(same rounding caveat as `wrapAbovePi`: the exact +2π step always makes
progress, the rounded `f64` step need not). -/
def wrapBelowNegPi (e : ℚ) : ℚ :=
  if e < -pi64 then wrapBelowNegPi (e + 2 * pi64) else e
termination_by (⌈(-pi64 - e) / (2 * pi64)⌉).toNat
decreasing_by
  rename_i h
  have hpi : 0 < pi64 := pi64_pos
  have h2 : (-pi64 - (e + 2 * pi64)) / (2 * pi64) = (-pi64 - e) / (2 * pi64) - 1 := by
    field_simp
    ring
  have h3 : 0 < ⌈(-pi64 - e) / (2 * pi64)⌉ :=
    Int.ceil_pos.mpr (div_pos (by linarith) (by linarith))
  rw [h2, Int.ceil_sub_one]
  omega

/-- Function `angle_error(current, target)` from `motion_controller.rs`:
`target - current` normalized into `[-π, π]` by the two loops above
(exact-arithmetic model, as consumed by the motion-controller embedding;
the `f64` rounding of the loop steps is modelled by `fl64`/`wrapAbovePiF64`
for the termination analysis). -/
def angle_error (current target : ℚ) : ℚ :=
  wrapBelowNegPi (wrapAbovePi (target - current))

/-- Round-to-nearest, ties to even, onto the IEEE-754 binary64 grid: the
value is rounded to the grid of spacing `2 ^ (⌊log₂ |x|⌋ - 52)` (the ulp of
its binade).  Zero maps to zero; subnormal underflow and overflow lie outside
every value this development evaluates, so they are not modelled.  This is
the rounding the source's `f64` subtractions perform. -/
def fl64 (x : ℚ) : ℚ :=
  if x = 0 then 0
  else
    let g : ℚ := 2 ^ (Int.log 2 |x| - 52)
    let m : ℚ := x / g
    let r : ℤ := ⌊m⌋
    let frac : ℚ := m - r
    let k : ℤ :=
      if frac < 1/2 then r
      else if 1/2 < frac then r + 1
      else if r % 2 = 0 then r else r + 1
    (k : ℚ) * g

/-- The first normalization loop of `angle_error`
(`while error > PI { error -= 2.0 * PI }`) executed in `f64` arithmetic: one
iteration replaces `error` by the binary64 rounding of `error - 2.0 * PI`
(the product `2.0 * PI` is exact in `f64`).  The explicit `fuel` bounds how
many iterations are examined; `none` means the loop has not exited within
`fuel` iterations, so `∀ fuel, none` is non-termination of the source loop. -/
def wrapAbovePiF64 : ℕ → ℚ → Option ℚ
  | 0, e => if pi64 < e then none else some e
  | n + 1, e =>
      if pi64 < e then wrapAbovePiF64 n (fl64 (e - 2 * pi64)) else some e

/-- Scaling stage of `apply_speed_constraints`: scale both components by a
common factor `max_speed / max_component` when the larger magnitude exceeds
`max_speed`. -/
def scaleToMaxSpeed (lateral angular max_speed : ℚ) : ℚ × ℚ :=
  let max_component := max |lateral| |angular|
  if max_speed < max_component then
    (lateral * (max_speed / max_component), angular * (max_speed / max_component))
  else
    (lateral, angular)

/-- Per-component minimum-speed raise of `apply_speed_constraints`: a nonzero
component whose magnitude is below `min_speed` becomes `signum * min_speed`. -/
def raiseComp (x min_speed : ℚ) : ℚ :=
  if 0 < |x| ∧ |x| < min_speed then rsignum x * min_speed else x

/-- Minimum-speed stage of `apply_speed_constraints` (`if min_speed > 0.0`,
then each component is raised independently). -/
def raiseToMinSpeed (p : ℚ × ℚ) (min_speed : ℚ) : ℚ × ℚ :=
  if 0 < min_speed then (raiseComp p.1 min_speed, raiseComp p.2 min_speed)
  else p

/-- Function `apply_speed_constraints(lateral, angular, max_speed, min_speed)`
from `motion_controller.rs`: scale down to `max_speed`, then raise to
`min_speed`. -/
def apply_speed_constraints (lateral angular max_speed min_speed : ℚ) : ℚ × ℚ :=
  raiseToMinSpeed (scaleToMaxSpeed lateral angular max_speed) min_speed

/-! ## `src/GravLib/drivebase/pose.rs` -/

/-- The `Pose` value type (x, y, theta in radians); the `_padding` field of
the Rust struct carries no data and is omitted. -/
structure Pose where
  x : ℚ
  y : ℚ
  theta : ℚ
deriving DecidableEq

/-- Constructor `Pose::new`. -/
def Pose.new (x y theta : ℚ) : Pose := ⟨x, y, theta⟩

/-! ## `src/GravLib/drivebase/motions/move_to_point.rs`

The libm functions used by the motion controllers are bundled as a parameter
record so the embedding stays computable. -/

/-- Parameter record modelling the libm functions `sin`, `cos`, `atan2` and
`hypot` called by the motion controllers. -/
structure MathOps where
  sin : ℚ → ℚ
  cos : ℚ → ℚ
  atan2 : ℚ → ℚ → ℚ
  hypot : ℚ → ℚ → ℚ

/-- Method `Pose::distance_to` (`hypot(self.x - other.x, self.y - other.y)`),
parameterized by the libm `hypot`. -/
def Pose.distance_to (ops : MathOps) (p other : Pose) : ℚ :=
  ops.hypot (p.x - other.x) (p.y - other.y)

/-- Parameters `MoveToPointParams` from `move_to_point.rs`.  The two gain
triples are `(kP, kI, kD)`. -/
structure MoveToPointParams where
  target_x : ℚ
  target_y : ℚ
  forwards : Bool
  max_speed : ℚ
  min_speed : ℚ
  exit_conditions : ExitConditions
  slew_rate : ℚ
  early_exit_range : ℚ
  lateral_gains : ℚ × ℚ × ℚ
  angular_gains : ℚ × ℚ × ℚ

/-- The `Default` instance of `MoveToPointParams`. -/
def MoveToPointParams.default : MoveToPointParams :=
  { target_x := 0
    target_y := 0
    forwards := true
    max_speed := 127
    min_speed := 0
    exit_conditions := ExitConditions.default
    slew_rate := 10
    early_exit_range := 0
    lateral_gains := (15, 0, 1/10)
    angular_gains := (2, 0, 1/10) }

/-- State of a `MoveToPointController`. -/
structure MoveToPointController where
  params : MoveToPointParams
  lateral_pid : PID
  angular_pid : PID
  finished : Bool
  close_to_target : Bool
  distance_traveled : ℚ
  last_pose : Option Pose

/-- Constructor `MoveToPointController::new` (`MotionController::new`): both
PIDs get windup range 3, sign-flip reset on, and the params' slew rate. -/
def MoveToPointController.new (params : MoveToPointParams) : MoveToPointController :=
  { params := params
    lateral_pid := PID.new_with_slew params.lateral_gains.1 params.lateral_gains.2.1
      params.lateral_gains.2.2 3 true params.slew_rate
    angular_pid := PID.new_with_slew params.angular_gains.1 params.angular_gains.2.1
      params.angular_gains.2.2 3 true params.slew_rate
    finished := false
    close_to_target := false
    distance_traveled := 0
    last_pose := none }

/-- Conversion `f64::to_degrees` (`self * (180.0 / PI)`), with the `f64`
constant π. -/
def to_degrees (x : ℚ) : ℚ := x * (180 / pi64)

/-- One call of `MoveToPointController::update(current_pose)` at wall-clock
time `now`; returns the `(lateral, angular)` command together with the updated
controller. -/
def MoveToPointController.update (ops : MathOps) (c : MoveToPointController)
    (now : ℚ) (current_pose : Pose) : (ℚ × ℚ) × MoveToPointController :=
  let distance_traveled :=
    match c.last_pose with
    | some last => c.distance_traveled + current_pose.distance_to ops last
    | none => c.distance_traveled
  let dx := c.params.target_x - current_pose.x
  let dy := c.params.target_y - current_pose.y
  let distance_to_target := ops.hypot dx dy
  let angle_to_target := ops.atan2 dy dx
  let robot_heading :=
    if c.params.forwards then current_pose.theta else current_pose.theta + pi64
  let angular_error := angle_error robot_heading angle_to_target
  let lateral_error := distance_to_target * ops.cos angular_error
  let close_to_target := c.close_to_target || decide (distance_to_target < 15/2)
  let lateral_result := c.lateral_pid.update now lateral_error
  let angular_result :=
    if close_to_target then ((0 : ℚ), c.angular_pid)
    else c.angular_pid.update now (to_degrees angular_error)
  let lateral_output :=
    if c.params.forwards ∧ ¬close_to_target then max lateral_result.1 0
    else if ¬c.params.forwards ∧ ¬close_to_target then min lateral_result.1 0
    else lateral_result.1
  let final_output := apply_speed_constraints lateral_output
    angular_result.1 c.params.max_speed c.params.min_speed
  let exit_result :=
    c.params.exit_conditions.should_exit now distance_to_target none
  let finished :=
    if ¬exit_result.1 ∧ 0 < c.params.early_exit_range ∧
        distance_to_target ≤ c.params.early_exit_range then true
    else exit_result.1
  (final_output,
    { params := { c.params with exit_conditions := exit_result.2 }
      lateral_pid := lateral_result.2
      angular_pid := angular_result.2
      finished := finished
      close_to_target := close_to_target
      distance_traveled := distance_traveled
      last_pose := some current_pose })

/-- Method `MoveToPointController::is_finished`. -/
def MoveToPointController.is_finished (c : MoveToPointController) : Bool :=
  c.finished

/-- Method `MoveToPointController::reset`. -/
def MoveToPointController.reset (c : MoveToPointController) : MoveToPointController :=
  { params := { c.params with exit_conditions := c.params.exit_conditions.reset }
    lateral_pid := c.lateral_pid.reset
    angular_pid := c.angular_pid.reset
    finished := false
    close_to_target := false
    distance_traveled := 0
    last_pose := none }

/-! ## `src/GravLib/drivebase/odometry.rs` -/

/-- The constant `EMA_ALPHA = 0.95`. -/
def EMA_ALPHA : ℚ := 95 / 100

/-- The constant `DELTA_TIME = 0.01` (assumed 10 ms loop time). -/
def DELTA_TIME : ℚ := 1 / 100

/-- The compile-time constant `PI_DIV_180 = PI / 180.0` (modelled without the
final `f64` rounding of the division). -/
def PI_DIV_180 : ℚ := pi64 / 180

/-- Function `ema(input, prev_output) = ALPHA * input + (1 - ALPHA) * prev`. -/
def ema (input prev_output : ℚ) : ℚ :=
  EMA_ALPHA * input + (1 - EMA_ALPHA) * prev_output

/-- Function `deg_to_rad`. -/
def deg_to_rad (deg : ℚ) : ℚ := deg * PI_DIV_180

/-- Per-tick input from one configured tracking wheel: its fixed lateral
`offset` (`get_offset()`) and the cumulative `distance` it reports this tick
(`get_distance_travelled()`; both reads within one `update` see the same
value). -/
structure WheelInput where
  offset : ℚ
  distance : ℚ
deriving DecidableEq

/-- Per-tick sensor inputs of `odometry::update`.  A `none` entry means the
sensor is not configured (`OdomSensors` field is `None`).  For the inertial
sensor, `some (some deg)` is a successful `rotation()` read in degrees and
`some none` a configured sensor whose read returned an error. -/
structure OdomInputs where
  vertical1 : Option WheelInput
  vertical2 : Option WheelInput
  horizontal1 : Option WheelInput
  horizontal2 : Option WheelInput
  imu : Option (Option ℚ)
deriving DecidableEq

/-- The raw IMU value used by `update`: initialized to `0.0` and overwritten
with `deg_to_rad(rotation)` only when the sensor is configured and the read
succeeds. -/
def imuRaw (imu : Option (Option ℚ)) : ℚ :=
  match imu with
  | some (some rotation) => deg_to_rad rotation
  | _ => 0

/-- The mutable fields of the global `OdometryState` (the sensor set is
carried per tick by `OdomInputs`; the `drivetrain` field is never read by
`update`). -/
structure OdomState where
  pose : Pose
  speed : Pose
  local_speed : Pose
  prev_vertical : ℚ
  prev_vertical1 : ℚ
  prev_vertical2 : ℚ
  prev_horizontal : ℚ
  prev_horizontal1 : ℚ
  prev_horizontal2 : ℚ
  prev_imu : ℚ
deriving DecidableEq

/-- The fresh state built by `OdometryState::new` (all zeros). -/
def OdomState.new : OdomState :=
  { pose := Pose.new 0 0 0
    speed := Pose.new 0 0 0
    local_speed := Pose.new 0 0 0
    prev_vertical := 0
    prev_vertical1 := 0
    prev_vertical2 := 0
    prev_horizontal := 0
    prev_horizontal1 := 0
    prev_horizontal2 := 0
    prev_imu := 0 }

/-- The heading-priority computation of `odometry::update` (lines 252-270):
start from the current `pose.theta`, then (i) if both horizontal wheels are
configured subtract `(Δh1 - Δh2) / (offset1 - offset2)`; else (ii) same with
both vertical wheels; else (iii) if an IMU is configured add its delta. -/
def odomHeading (inp : OdomInputs) (s : OdomState) : ℚ :=
  match inp.horizontal1, inp.horizontal2 with
  | some h1, some h2 =>
      s.pose.theta - ((h1.distance - s.prev_horizontal1) -
        (h2.distance - s.prev_horizontal2)) / (h1.offset - h2.offset)
  | _, _ =>
    match inp.vertical1, inp.vertical2 with
    | some v1, some v2 =>
        s.pose.theta - ((v1.distance - s.prev_vertical1) -
          (v2.distance - s.prev_vertical2)) / (v1.offset - v2.offset)
    | _, _ =>
      if inp.imu.isSome then s.pose.theta + (imuRaw inp.imu - s.prev_imu)
      else s.pose.theta

/-- One fusion tick: the body of `odometry::update` after the `Some` state
has been obtained, mirroring lines 213-327 of `odometry.rs`. -/
def odomStep (ops : MathOps) (inp : OdomInputs) (s : OdomState) : OdomState :=
  let vertical1_raw := match inp.vertical1 with | some v1 => v1.distance | none => 0
  let vertical2_raw := match inp.vertical2 with | some v2 => v2.distance | none => 0
  let horizontal1_raw := match inp.horizontal1 with | some h1 => h1.distance | none => 0
  let horizontal2_raw := match inp.horizontal2 with | some h2 => h2.distance | none => 0
  let imu_raw := imuRaw inp.imu
  let heading := odomHeading inp s
  let delta_heading := heading - s.pose.theta
  let avg_heading := s.pose.theta + delta_heading / 2
  let (raw_vertical, vertical_offset) :=
    match inp.vertical1 with
    | some v1 => (v1.distance, v1.offset)
    | none =>
      match inp.vertical2 with
      | some v2 => (v2.distance, v2.offset)
      | none => ((0 : ℚ), (0 : ℚ))
  let (raw_horizontal, horizontal_offset) :=
    match inp.horizontal1 with
    | some h1 => (h1.distance, h1.offset)
    | none =>
      match inp.horizontal2 with
      | some h2 => (h2.distance, h2.offset)
      | none => ((0 : ℚ), (0 : ℚ))
  let delta_y := raw_vertical - s.prev_vertical
  let delta_x := raw_horizontal - s.prev_horizontal
  let (local_x, local_y) :=
    if |delta_heading| < f64Epsilon then (delta_x, delta_y)
    else
      (2 * ops.sin (delta_heading / 2) * (delta_x / delta_heading + horizontal_offset),
       2 * ops.sin (delta_heading / 2) * (delta_y / delta_heading + vertical_offset))
  let new_x := s.pose.x + local_y * ops.sin avg_heading + local_x * -ops.cos avg_heading
  let new_y := s.pose.y + local_y * ops.cos avg_heading + local_x * ops.sin avg_heading
  let inv_dt := 1 / DELTA_TIME
  { pose := Pose.new new_x new_y heading
    speed := Pose.new
      (ema ((new_x - s.pose.x) * inv_dt) s.speed.x)
      (ema ((new_y - s.pose.y) * inv_dt) s.speed.y)
      (ema ((heading - s.pose.theta) * inv_dt) s.speed.theta)
    local_speed := Pose.new
      (ema (local_x * inv_dt) s.local_speed.x)
      (ema (local_y * inv_dt) s.local_speed.y)
      (ema (delta_heading * inv_dt) s.local_speed.theta)
    prev_vertical := raw_vertical
    prev_vertical1 := vertical1_raw
    prev_vertical2 := vertical2_raw
    prev_horizontal := raw_horizontal
    prev_horizontal1 := horizontal1_raw
    prev_horizontal2 := horizontal2_raw
    prev_imu := imu_raw }

/-- The whole of `odometry::update`: when the global `ODOMETRY_STATE` is
`None` (no sensors configured) the function returns immediately without
touching anything; otherwise it runs one fusion tick on the stored state. -/
def odomUpdate (ops : MathOps) (inp : OdomInputs) :
    Option OdomState → Option OdomState
  | none => none
  | some s => some (odomStep ops inp s)

/-! ## `src/GravLib/drivebase/task_manager.rs` (`odometry_task_loop`) -/

/-- The lateness classification of one cycle of `odometry_task_loop`:
`was_late = now > next_update + jitter_tolerance`, where `next_update` is the
deadline the cycle was scheduled against and `now` the post-update timestamp. -/
def cycleWasLate (deadline jitter_tolerance now : ℚ) : Bool :=
  decide (deadline + jitter_tolerance < now)

/-- The deadline update of one cycle of `odometry_task_loop`: the deadline is
advanced by the configured interval; if the completion time has already passed
the advanced deadline, it is re-anchored to `now + interval` instead. -/
def nextDeadline (deadline interval now : ℚ) : ℚ :=
  let advanced := deadline + interval
  if now < advanced then advanced else now + interval

/-- The deadline after a sequence of cycles with the given completion times. -/
def deadlineSeq (deadline interval : ℚ) : List ℚ → ℚ
  | [] => deadline
  | now :: rest => deadlineSeq (nextDeadline deadline interval now) interval rest

/-- Decides that every cycle in the sequence completed before its advanced
deadline (`now < deadline + interval`), i.e. that no cycle was re-anchored. -/
def allCyclesOnTime (deadline interval : ℚ) : List ℚ → Bool
  | [] => true
  | now :: rest =>
      decide (now < deadline + interval) &&
        allCyclesOnTime (nextDeadline deadline interval now) interval rest

/-! ## Concrete instances used to evaluate closed statements -/

/-- A concrete instance of the libm function record.  It agrees with the true
libm functions at every argument at which the closed statements below evaluate
it: `hypot 0 0 = 0`, `atan2 0 0 = 0`, `sin 0 = 0`, `cos 0 = 1` (the theorems
quantifying over `MathOps` show the evaluated results do not depend on any
other values of these functions). -/
def originMathOps : MathOps :=
  { sin := fun _ => 0
    cos := fun _ => 1
    atan2 := fun _ _ => 0
    hypot := fun _ _ => 0 }

/-- Default move-to-point parameters whose exit conditions have zero timeout
(thresholds as in `ExitConditions::default`, both timeouts 0 ms). -/
def zeroTimeoutParams : MoveToPointParams :=
  { MoveToPointParams.default with exit_conditions := ExitConditions.new 1 0 3 0 }

/-! ## Helper lemmas -/

/-- The heading written into the pose by one fusion tick is exactly the
heading-priority value; in particular it does not depend on the trig
functions. -/
theorem odomStep_pose_theta (ops : MathOps) (inp : OdomInputs) (s : OdomState) :
    (odomStep ops inp s).pose.theta = odomHeading inp s := by
  obtain ⟨v1, v2, h1, h2, imu⟩ := inp
  cases v1 <;> cases v2 <;> cases h1 <;> cases h2 <;> rfl

/-- The `finished` flag written by one move-to-point update depends only on
the exit conditions, the early-exit range, and the distance to target. -/
theorem update_finished_eq (ops : MathOps) (c : MoveToPointController) (now : ℚ)
    (p : Pose) :
    ((c.update ops now p).2).finished =
      (let dist := ops.hypot (c.params.target_x - p.x) (c.params.target_y - p.y)
       let se := (c.params.exit_conditions.should_exit now dist none).1
       if ¬se ∧ 0 < c.params.early_exit_range ∧ dist ≤ c.params.early_exit_range
       then true else se) := rfl

/-- The exit conditions stored after one move-to-point update. -/
theorem update_exit_conditions_eq (ops : MathOps) (c : MoveToPointController)
    (now : ℚ) (p : Pose) :
    ((c.update ops now p).2).params.exit_conditions =
      (c.params.exit_conditions.should_exit now
        (ops.hypot (c.params.target_x - p.x) (c.params.target_y - p.y)) none).2 :=
  rfl

/-- The first normalization loop of `angle_error` ends at or below π. -/
theorem wrapAbovePi_le_pi (e : ℚ) : wrapAbovePi e ≤ pi64 := by
  induction e using wrapAbovePi.induct with
  | case1 e h ih => rw [wrapAbovePi, if_pos h]; exact ih
  | case2 e h => rw [wrapAbovePi, if_neg h]; exact le_of_not_lt h

/-- The second normalization loop of `angle_error` ends at or above -π. -/
theorem wrapBelowNegPi_ge (e : ℚ) : -pi64 ≤ wrapBelowNegPi e := by
  induction e using wrapBelowNegPi.induct with
  | case1 e h ih => rw [wrapBelowNegPi, if_pos h]; exact ih
  | case2 e h => rw [wrapBelowNegPi, if_neg h]; exact le_of_not_lt h

/-- The second normalization loop keeps values at or below π. -/
theorem wrapBelowNegPi_le (e : ℚ) (he : e ≤ pi64) : wrapBelowNegPi e ≤ pi64 := by
  induction e using wrapBelowNegPi.induct with
  | case1 e h ih =>
    rw [wrapBelowNegPi, if_pos h]
    exact ih (by linarith [pi64_pos])
  | case2 e h => rw [wrapBelowNegPi, if_neg h]; exact he

/-- In the exact-rational model the normalization of `angle_error` is total
and its result lies in `[-π, π]` (with the `f64` value of π).  This totality
is a property of the exact arithmetic only and does not transfer to the
`f64` program: see `angle_error_f64_nontermination`. -/
theorem angle_error_range_exact (current target : ℚ) :
    -pi64 ≤ angle_error current target ∧ angle_error current target ≤ pi64 :=
  ⟨wrapBelowNegPi_ge _, wrapBelowNegPi_le _ (wrapAbovePi_le_pi _)⟩

/-- Characterization of `Int.log 2` by the binade bounds. -/
theorem int_log_two_eq (x : ℚ) (n : ℤ) (h0 : 0 < x) (h1 : (2 : ℚ) ^ n ≤ x)
    (h2 : x < (2 : ℚ) ^ (n + 1)) : Int.log 2 x = n := by
  have hb : (1 : ℕ) < 2 := one_lt_two
  have hl := Int.zpow_log_le_self hb h0
  have hu := Int.lt_zpow_succ_log_self hb x
  rw [Nat.cast_ofNat] at hl hu
  have hn1 : n < Int.log 2 x + 1 := by
    rw [← zpow_lt_zpow_iff_right₀ (show (1 : ℚ) < 2 by norm_num)]
    exact lt_of_le_of_lt h1 hu
  have hn2 : Int.log 2 x < n + 1 := by
    rw [← zpow_lt_zpow_iff_right₀ (show (1 : ℚ) < 2 by norm_num)]
    exact lt_of_le_of_lt hl h2
  omega

/-- A positive value already on the binary64 grid of its binade rounds to
itself. -/
theorem fl64_eval_exact (x : ℚ) (n r : ℤ) (h0 : 0 < x)
    (hlog : Int.log 2 x = n) (hxr : x = r * 2 ^ (n - 52)) : fl64 x = x := by
  have hg : (0 : ℚ) < 2 ^ (n - 52) := zpow_pos (by norm_num) _
  have hm : x / 2 ^ (n - 52) = (r : ℚ) := by
    rw [hxr]
    field_simp
  simp only [fl64, if_neg h0.ne', abs_of_pos h0, hlog, hm]
  rw [Int.floor_intCast]
  norm_num [← hxr]

/-- Evaluation of `fl64` when the scaled fraction exceeds 1/2: the value
rounds up to the next grid point. -/
theorem fl64_eval_up (x : ℚ) (n r : ℤ) (h0 : 0 < x)
    (hlog : Int.log 2 x = n) (hr : ⌊x / 2 ^ (n - 52)⌋ = r)
    (hfrac : 1/2 < x / 2 ^ (n - 52) - r) :
    fl64 x = (r + 1 : ℤ) * 2 ^ (n - 52) := by
  simp only [fl64, if_neg h0.ne', abs_of_pos h0, hlog, hr]
  rw [if_neg (by linarith), if_pos hfrac]

/-- If one `f64` iteration of the first normalization loop leaves the error
unchanged while it is still above π, the loop never exits, for any number of
iterations. -/
theorem wrapAbovePiF64_stuck (e : ℚ) (hfix : fl64 (e - 2 * pi64) = e)
    (hgt : pi64 < e) : ∀ n, wrapAbovePiF64 n e = none := by
  intro n
  induction n with
  | zero => simp [wrapAbovePiF64, hgt]
  | succ n ih => simp [wrapAbovePiF64, hgt, hfix, ih]

/-- Over a run of cycles that each complete before their advanced deadline,
the final deadline is the initial one plus (number of cycles) * interval. -/
theorem deadlineSeq_onTime (interval : ℚ) :
    ∀ (ts : List ℚ) (deadline : ℚ), allCyclesOnTime deadline interval ts = true →
      deadlineSeq deadline interval ts = deadline + ts.length * interval := by
  intro ts
  induction ts with
  | nil => intro d _; simp [deadlineSeq]
  | cons t rest ih =>
    intro d h
    rw [allCyclesOnTime, Bool.and_eq_true, decide_eq_true_eq] at h
    obtain ⟨h1, h2⟩ := h
    have hnd : nextDeadline d interval t = d + interval := by
      simp [nextDeadline, h1]
    rw [deadlineSeq, ih _ h2, hnd]
    push_cast [List.length_cons]
    ring

/-- The model of `f64::signum` has absolute value 1. -/
theorem abs_rsignum (x : ℚ) : |rsignum x| = 1 := by
  unfold rsignum
  split <;> norm_num

/-- The scaling stage multiplies both components by one positive factor. -/
theorem scaleToMaxSpeed_comm (l a m : ℚ) (h : 0 < m) :
    ∃ c, 0 < c ∧ scaleToMaxSpeed l a m = (c * l, c * a) := by
  simp only [scaleToMaxSpeed]
  split
  · rename_i hlt
    exact ⟨m / max |l| |a|, div_pos h (lt_trans h hlt),
      by rw [mul_comm l, mul_comm a]⟩
  · exact ⟨1, one_pos, by simp⟩

/-- After the scaling stage, both components are bounded by the max speed. -/
theorem scaleToMaxSpeed_abs_le (l a m : ℚ) (h : 0 < m) :
    |(scaleToMaxSpeed l a m).1| ≤ m ∧ |(scaleToMaxSpeed l a m).2| ≤ m := by
  simp only [scaleToMaxSpeed]
  split
  · rename_i hlt
    have hc : 0 < max |l| |a| := lt_trans h hlt
    have hd : 0 ≤ m / max |l| |a| := (div_pos h hc).le
    constructor
    · rw [abs_mul, abs_of_nonneg hd]
      calc |l| * (m / max |l| |a|) ≤ max |l| |a| * (m / max |l| |a|) :=
            mul_le_mul_of_nonneg_right (le_max_left _ _) hd
        _ = m := by field_simp
    · rw [abs_mul, abs_of_nonneg hd]
      calc |a| * (m / max |l| |a|) ≤ max |l| |a| * (m / max |l| |a|) :=
            mul_le_mul_of_nonneg_right (le_max_right _ _) hd
        _ = m := by field_simp
  · rename_i hnlt
    exact ⟨le_trans (le_max_left _ _) (not_lt.mp hnlt),
      le_trans (le_max_right _ _) (not_lt.mp hnlt)⟩

/-- The minimum-speed raise never pushes a component past a bound that
dominates both the component and the minimum speed. -/
theorem raiseComp_abs_le (x minS M : ℚ) (hx : |x| ≤ M) (hm : minS ≤ M) :
    |raiseComp x minS| ≤ M := by
  unfold raiseComp
  split
  · rename_i hcond
    rw [abs_mul, abs_rsignum, one_mul,
      abs_of_nonneg (le_of_lt (lt_of_le_of_lt (abs_nonneg x) hcond.2))]
    exact hm
  · exact hx

/-- A nonzero component leaves the minimum-speed raise with magnitude at
least the minimum speed. -/
theorem raiseComp_min (x minS : ℚ) (h0 : 0 ≤ minS) (hne : raiseComp x minS ≠ 0) :
    minS ≤ |raiseComp x minS| := by
  by_cases hcond : 0 < |x| ∧ |x| < minS
  · rw [raiseComp, if_pos hcond, abs_mul, abs_rsignum, one_mul,
      abs_of_nonneg h0]
  · rw [raiseComp, if_neg hcond] at hne ⊢
    rcases not_and_or.mp hcond with h | h
    · exact absurd (abs_pos.mpr hne) h
    · exact not_lt.mp h

/-- The minimum-speed raise preserves positivity. -/
theorem raiseComp_pos (x minS : ℚ) (hx : 0 < x) : 0 < raiseComp x minS := by
  unfold raiseComp
  split
  · rename_i h
    rw [show rsignum x = 1 from if_neg (not_lt.mpr hx.le), one_mul]
    exact lt_of_lt_of_le h.1 h.2.le
  · exact hx

/-- The minimum-speed raise preserves negativity. -/
theorem raiseComp_neg (x minS : ℚ) (hx : x < 0) : raiseComp x minS < 0 := by
  unfold raiseComp
  split
  · rename_i h
    rw [show rsignum x = -1 from if_pos hx]
    have : 0 < minS := lt_of_lt_of_le h.1 h.2.le
    linarith
  · exact hx

/-- The minimum-speed raise maps zero to zero. -/
theorem raiseComp_of_zero (minS : ℚ) : raiseComp 0 minS = 0 := by
  simp [raiseComp]

/-! ## Claims -/

/-- Claim C1.  The claim states that when the inertial sensor is configured
but its `rotation()` read fails, the tick uses a heading delta of zero, so
the pose's theta is unchanged for every prior state.  The code instead leaves
the default `imu_raw = 0.0` in place, so the delta is `0 - prev_imu`: in the
state below (IMU-only configuration, `prev_imu = 1` from an earlier
successful read, theta = 0) a failed read moves theta from 0 to -1.  The
heading written by `odomStep` does not depend on the trig parameters
(`odomStep_pose_theta`), so evaluating at `originMathOps` is exact. -/
theorem imu_read_failure_shifts_heading :
    (odomStep originMathOps ⟨none, none, none, none, some none⟩
      { OdomState.new with prev_imu := 1 }).pose.theta = -1 ∧
    ({ OdomState.new with prev_imu := 1 } : OdomState).pose.theta = 0 := by
  constructor
  · rw [odomStep_pose_theta]
    norm_num [odomHeading, imuRaw, OdomState.new, Pose.new]
  · rfl

/-- Claim C2.  In every fusion tick the heading delta comes from exactly one
source, chosen by fixed priority: (i) with two horizontal wheels configured,
`theta` becomes `theta - (Δh1 - Δh2) / (offset1 - offset2)`; (ii) otherwise,
with two vertical wheels, the analogous formula; (iii) otherwise, with an
inertial sensor, its delta is added directly.  The three cases cover every
configuration with at least one heading source, so no two sources are ever
combined in one tick. -/
theorem heading_delta_priority (ops : MathOps) (inp : OdomInputs) (s : OdomState) :
    (∀ h1 h2, inp.horizontal1 = some h1 → inp.horizontal2 = some h2 →
      (odomStep ops inp s).pose.theta =
        s.pose.theta - ((h1.distance - s.prev_horizontal1) -
          (h2.distance - s.prev_horizontal2)) / (h1.offset - h2.offset)) ∧
    (∀ v1 v2, (inp.horizontal1 = none ∨ inp.horizontal2 = none) →
      inp.vertical1 = some v1 → inp.vertical2 = some v2 →
      (odomStep ops inp s).pose.theta =
        s.pose.theta - ((v1.distance - s.prev_vertical1) -
          (v2.distance - s.prev_vertical2)) / (v1.offset - v2.offset)) ∧
    ((inp.horizontal1 = none ∨ inp.horizontal2 = none) →
      (inp.vertical1 = none ∨ inp.vertical2 = none) → ∀ r, inp.imu = some r →
      (odomStep ops inp s).pose.theta =
        s.pose.theta + (imuRaw (some r) - s.prev_imu)) := by
  refine ⟨fun h1 h2 e1 e2 => ?_, fun v1 v2 hh e1 e2 => ?_, fun hh hv r e => ?_⟩
  · rw [odomStep_pose_theta]
    simp only [odomHeading, e1, e2]
  · rw [odomStep_pose_theta]
    rcases hh with hh | hh
    · simp only [odomHeading, hh, e1, e2]
    · cases hx : inp.horizontal1 <;> simp only [odomHeading, hx, hh, e1, e2]
  · rw [odomStep_pose_theta]
    rcases hh with hh | hh <;> rcases hv with hv | hv
    all_goals
      cases hx : inp.horizontal1 <;> cases hy : inp.vertical1 <;>
        cases hz : inp.vertical2 <;>
        simp_all [odomHeading]

/-- Witness for C2: one concrete tick per priority case.  With horizontal
wheels at offsets 2 and -2 reading 3 and 1 the heading becomes -1/2; with
vertical wheels at offsets 1 and -1 reading 4 and 2 it becomes -1; with only
an IMU reading 90 degrees it becomes π/2. -/
theorem heading_delta_priority_witness :
    (odomStep originMathOps ⟨none, none, some ⟨2, 3⟩, some ⟨-2, 1⟩, none⟩
      OdomState.new).pose.theta = -(1/2) ∧
    (odomStep originMathOps ⟨some ⟨1, 4⟩, some ⟨-1, 2⟩, none, none, none⟩
      OdomState.new).pose.theta = -1 ∧
    (odomStep originMathOps ⟨none, none, none, none, some (some 90)⟩
      OdomState.new).pose.theta = pi64 / 2 := by
  refine ⟨?_, ?_, ?_⟩
  · have h := (heading_delta_priority originMathOps
      ⟨none, none, some ⟨2, 3⟩, some ⟨-2, 1⟩, none⟩ OdomState.new).1
      ⟨2, 3⟩ ⟨-2, 1⟩ rfl rfl
    rw [h]
    norm_num [OdomState.new, Pose.new]
  · have h := (heading_delta_priority originMathOps
      ⟨some ⟨1, 4⟩, some ⟨-1, 2⟩, none, none, none⟩ OdomState.new).2.1
      ⟨1, 4⟩ ⟨-1, 2⟩ (Or.inl rfl) rfl rfl
    rw [h]
    norm_num [OdomState.new, Pose.new]
  · have h := (heading_delta_priority originMathOps
      ⟨none, none, none, none, some (some 90)⟩ OdomState.new).2.2
      (Or.inl rfl) (Or.inl rfl) (some 90) rfl
    rw [h]
    norm_num [OdomState.new, Pose.new, imuRaw, deg_to_rad, PI_DIV_180]
    ring

/-- Claim C3.  For every exit condition and update: (a) a value within the
threshold while the condition timer is unset starts the timer at the current
time and reports `NotMet`; (b) a value outside the threshold clears the
timer and reports `NotMet`; (c) a value within the threshold at least
`timeout` after the timer was started reports `Met`; (d) consequently, after
leaving and re-entering the threshold the timer restarts from the re-entry
time. -/
theorem exit_condition_update_behavior (s : ExitCondition) (now v : ℚ) :
    (s.condition_met_start = none → |v| ≤ s.threshold →
      (s.update now v).1 = ExitConditionState.NotMet ∧
      (s.update now v).2.condition_met_start = some now) ∧
    (s.threshold < |v| →
      (s.update now v).1 = ExitConditionState.NotMet ∧
      (s.update now v).2.condition_met_start = none) ∧
    (∀ m, s.condition_met_start = some m → |v| ≤ s.threshold →
      s.timeout ≤ now - m → (s.update now v).1 = ExitConditionState.Met) ∧
    (∀ t3 v3, s.threshold < |v| → |v3| ≤ s.threshold →
      ((((s.update now v).2).update t3 v3).2).condition_met_start = some t3) := by
  refine ⟨fun hm hv => ?_, fun hv => ?_, fun m hm hv ht => ?_,
    fun t3 v3 hv hv3 => ?_⟩
  · cases hst : s.start_time <;> simp [ExitCondition.update, hm, hv, hst]
  · cases hst : s.start_time <;>
      simp [ExitCondition.update, not_le.mpr hv, hst]
  · have hmax : s.timeout ≤ max (now - m) 0 := le_trans ht (le_max_left _ _)
    cases hst : s.start_time <;>
      simp [ExitCondition.update, hm, hv, hst, hmax]
  · have h2 : ((s.update now v).2).condition_met_start = none ∧
        ((s.update now v).2).threshold = s.threshold := by
      cases hst : s.start_time <;>
        simp [ExitCondition.update, not_le.mpr hv, hst]
    obtain ⟨hc2, ht2⟩ := h2
    generalize hG : (s.update now v).2 = s2 at hc2 ht2 ⊢
    cases hst2 : s2.start_time <;>
      simp [ExitCondition.update, hc2, hst2, ht2, hv3]

/-- Witness for C3, exercising all four parts on concrete conditions with
threshold 1 and timeout 100. -/
theorem exit_condition_update_behavior_witness :
    (((ExitCondition.new 1 100).update 0 (1/2)).1 = ExitConditionState.NotMet ∧
      ((ExitCondition.new 1 100).update 0 (1/2)).2.condition_met_start = some 0) ∧
    (((ExitCondition.new 1 100).update 0 2).1 = ExitConditionState.NotMet ∧
      ((ExitCondition.new 1 100).update 0 2).2.condition_met_start = none) ∧
    ((ExitCondition.mk 1 100 (some 0) (some 0)).update 150 0).1 =
      ExitConditionState.Met ∧
    (((((ExitCondition.new 1 100).update 10 5).2).update 20 0).2).condition_met_start
      = some 20 := by
  refine ⟨(exit_condition_update_behavior (ExitCondition.new 1 100) 0 (1/2)).1
      rfl (by norm_num [ExitCondition.new, abs_le]),
    (exit_condition_update_behavior (ExitCondition.new 1 100) 0 2).2.1
      (by norm_num [ExitCondition.new]),
    (exit_condition_update_behavior (ExitCondition.mk 1 100 (some 0) (some 0))
      150 0).2.2.1 0 rfl (by norm_num [abs_le]) (by norm_num),
    (exit_condition_update_behavior (ExitCondition.new 1 100) 10 5).2.2.2 20 0
      (by norm_num [ExitCondition.new, abs_le]) (by norm_num [ExitCondition.new, abs_le])⟩

/-- Claim C4, counterexample.  A freshly reset `MoveToPointController` with
default parameters and zero-timeout exit conditions, already at its target
(distance zero): after a single `update` at the target pose, `is_finished()`
is still false — the first in-threshold update only starts the exit-condition
timer (`ExitCondition::update` returns `NotMet` on the call that sets the
timer), so the claimed one-tick termination fails. -/
theorem move_to_point_one_tick_counterexample :
    ((((MoveToPointController.new zeroTimeoutParams).reset).update originMathOps 0
      (Pose.new 0 0 0)).2).is_finished = false := by
  show (_ : MoveToPointController).finished = false
  rw [update_finished_eq]
  norm_num [MoveToPointController.new, MoveToPointController.reset,
    zeroTimeoutParams, MoveToPointParams.default, ExitConditions.new,
    ExitCondition.new, ExitConditions.reset, ExitCondition.reset, Pose.new,
    originMathOps, ExitConditions.should_exit, ExitCondition.update]
  decide

/-- Claim C4, amended.  For a freshly reset controller at its target with
zero-timeout exit conditions, one update leaves `is_finished()` false (the
in-threshold update starts the timer and reports `NotMet`), and a second
update at the same pose (at any timestamp) makes `is_finished()` true: the
motion terminates within two ticks, not one.  This holds for every model of
the libm functions with `hypot(0,0) = 0`. -/
theorem move_to_point_two_tick_termination (ops : MathOps) (t1 t2 : ℚ)
    (h0 : ops.hypot 0 0 = 0) :
    ((((MoveToPointController.new zeroTimeoutParams).reset).update ops t1
      (Pose.new 0 0 0)).2).is_finished = false ∧
    ((((((MoveToPointController.new zeroTimeoutParams).reset).update ops t1
      (Pose.new 0 0 0)).2).update ops t2 (Pose.new 0 0 0)).2).is_finished
      = true := by
  constructor
  · show (_ : MoveToPointController).finished = false
    rw [update_finished_eq]
    norm_num [MoveToPointController.new, MoveToPointController.reset,
      zeroTimeoutParams, MoveToPointParams.default, ExitConditions.new,
      ExitCondition.new, ExitConditions.reset, ExitCondition.reset, Pose.new,
      h0, ExitConditions.should_exit, ExitCondition.update]
    decide
  · show (_ : MoveToPointController).finished = true
    rw [update_finished_eq]
    have hec : (((((MoveToPointController.new zeroTimeoutParams).reset).update
        ops t1 (Pose.new 0 0 0)).2)).params.exit_conditions =
        { small_error := ⟨1, 0, some t1, some t1⟩,
          large_error := ⟨3, 0, some t1, some t1⟩, velocity := none } := by
      rw [update_exit_conditions_eq]
      norm_num [MoveToPointController.new, MoveToPointController.reset,
        zeroTimeoutParams, MoveToPointParams.default, ExitConditions.new,
        ExitCondition.new, ExitConditions.reset, ExitCondition.reset, Pose.new,
        h0, ExitConditions.should_exit, ExitCondition.update]
    rw [hec]
    have htx : (((((MoveToPointController.new zeroTimeoutParams).reset).update
        ops t1 (Pose.new 0 0 0)).2)).params.target_x = 0 := rfl
    have hty : (((((MoveToPointController.new zeroTimeoutParams).reset).update
        ops t1 (Pose.new 0 0 0)).2)).params.target_y = 0 := rfl
    have her : (((((MoveToPointController.new zeroTimeoutParams).reset).update
        ops t1 (Pose.new 0 0 0)).2)).params.early_exit_range = 0 := rfl
    rw [htx, hty, her]
    norm_num [Pose.new, h0, ExitConditions.should_exit, ExitCondition.update,
      le_max_iff, Option.some_ne_none, reduceCtorEq]

/-- Witness for C4 (amended): both timestamps 0 with the concrete libm
instance. -/
theorem move_to_point_two_tick_termination_witness :
    ((((MoveToPointController.new zeroTimeoutParams).reset).update originMathOps
      0 (Pose.new 0 0 0)).2).is_finished = false ∧
    ((((((MoveToPointController.new zeroTimeoutParams).reset).update originMathOps
      0 (Pose.new 0 0 0)).2).update originMathOps 0 (Pose.new 0 0 0)).2).is_finished
      = true :=
  move_to_point_two_tick_termination originMathOps 0 0 rfl

/-- Claim C5, counterexample.  The claim asserts `update(e) = kp * e` for
every controller with `ki = kd = 0`, regardless of call history.  A
controller with slew-rate limiting (`PID::new_with_slew` with slew rate 1)
violates it: after a first call (`update(0)` at time 0, output 0), the call
`update(10)` at time 1 is clamped to `prev_output + signum * slew_rate * dt
= 1`, not `kp * 10 = 10`. -/
theorem pid_slew_counterexample :
    ((((PID.new_with_slew 1 0 0 0 false 1).update 0 0).2).update 1 10).1 ≠
      (PID.new_with_slew 1 0 0 0 false 1).m_gains.k_p * 10 := by
  have h1 : (PID.new_with_slew 1 0 0 0 false 1).update 0 0 =
      (0, ⟨⟨1, 0, 0⟩, false, 0, 0, 0, some 0, false, 0, some 0, 1⟩) := by
    norm_num [PID.update, PID.new_with_slew, PID.new, PID.dtSecs, PID.derivative,
      PID.nextIntegral, PID.applySlew, rsignum, f64Epsilon, max_def]
  rw [h1]
  norm_num [PID.update, PID.new_with_slew, PID.new, PID.dtSecs, PID.derivative,
    PID.nextIntegral, PID.applySlew, rsignum, f64Epsilon, max_def]

/-- Claim C5, amended.  For every PID controller with `ki = 0`, `kd = 0` and
slew-rate limiting disabled (`slew_rate <= 0`, as produced by `PID::new`),
`update(e)` returns exactly `kp * e`, regardless of the elapsed time since
the previous call and regardless of the call history (the state `s` is
arbitrary). -/
theorem pid_pure_proportional (s : PID) (now e : ℚ) (hki : s.m_gains.k_i = 0)
    (hkd : s.m_gains.k_d = 0) (hslew : s.m_slew_rate ≤ 0) :
    (s.update now e).1 = s.m_gains.k_p * e := by
  have h1 : (0 < s.m_slew_rate) = False := eq_false (not_lt.mpr hslew)
  simp [PID.update, PID.applySlew, hki, hkd, h1, mul_comm]

/-- Witness for C5 (amended): a `PID::new` controller with `kp = 2` returns
`2 * 3 = 6`. -/
theorem pid_pure_proportional_witness :
    ((PID.new 2 0 0 0 false).update 1 3).1 = 2 * 3 :=
  pid_pure_proportional (PID.new 2 0 0 0 false) 1 3 rfl rfl
    (by norm_num [PID.new])

/-- Claim C6.  For every PID state whose anti-windup flag is set (as every
controller configured with a nonzero windup range has it) and every error
with `|error|` above the windup range, one `update` leaves the accumulated
integral, as read by `integral()`, exactly 0, and the output is the
slew-limited sum of the proportional and derivative terms alone (the
integral term contributes zero).  The windup configuration is untouched by
`update`, so this applies at every such tick of any run of N ticks. -/
theorem pid_antiwindup_zeroes_integral (s : PID) (now e : ℚ)
    (_hwz : s.m_windup_range ≠ 0) (hflag : s.m_has_windup_range = true)
    (he : s.m_windup_range < |e|) :
    ((s.update now e).2).integral = 0 ∧
    (s.update now e).1 = s.applySlew (s.dtSecs now)
      (e * s.m_gains.k_p + s.derivative (s.dtSecs now) e * s.m_gains.k_d) ∧
    ((s.update now e).2).m_windup_range = s.m_windup_range ∧
    ((s.update now e).2).m_has_windup_range = s.m_has_windup_range := by
  have hint : s.nextIntegral (s.dtSecs now) e = 0 := by
    simp [PID.nextIntegral, hflag, he]
  refine ⟨?_, ?_, rfl, rfl⟩
  · simp [PID.update, PID.integral, hint]
  · simp only [PID.update, hint]
    congr 1
    ring

/-- Witness for C6: windup range 1, error 2, on a controller with all gains
nonzero. -/
theorem pid_antiwindup_zeroes_integral_witness :
    (((PID.new 5 7 9 1 true).update 3 2).2).integral = 0 ∧
    ((PID.new 5 7 9 1 true).update 3 2).1 =
      (PID.new 5 7 9 1 true).applySlew ((PID.new 5 7 9 1 true).dtSecs 3)
        (2 * (PID.new 5 7 9 1 true).m_gains.k_p +
          (PID.new 5 7 9 1 true).derivative ((PID.new 5 7 9 1 true).dtSecs 3) 2 *
            (PID.new 5 7 9 1 true).m_gains.k_d) ∧
    (((PID.new 5 7 9 1 true).update 3 2).2).m_windup_range =
      (PID.new 5 7 9 1 true).m_windup_range ∧
    (((PID.new 5 7 9 1 true).update 3 2).2).m_has_windup_range =
      (PID.new 5 7 9 1 true).m_has_windup_range :=
  pid_antiwindup_zeroes_integral (PID.new 5 7 9 1 true) 3 2
    (by norm_num [PID.new]) (by norm_num [PID.new]) (by norm_num [PID.new, abs_le])

/-- Claim C7.  One scheduler cycle of `odometry_task_loop`: (a) when the
cycle completes before the advanced deadline the next deadline is exactly the
previous deadline plus the configured interval; (b) when the completion time
has reached the advanced deadline the next deadline is re-anchored to
`now + interval`; (c) a cycle is classified late exactly when its completion
time exceeds its deadline plus the jitter tolerance; (d) over any run of
cycles that all complete before their advanced deadlines,
`deadline[n] - deadline[0] = n * interval` (no drift accumulation). -/
theorem scheduler_deadline_discipline (deadline interval jitter_tolerance now : ℚ)
    (ts : List ℚ) :
    (now < deadline + interval →
      nextDeadline deadline interval now = deadline + interval) ∧
    (deadline + interval ≤ now →
      nextDeadline deadline interval now = now + interval) ∧
    (cycleWasLate deadline jitter_tolerance now = true ↔
      deadline + jitter_tolerance < now) ∧
    (allCyclesOnTime deadline interval ts = true →
      deadlineSeq deadline interval ts = deadline + ts.length * interval) := by
  refine ⟨fun h => by simp [nextDeadline, h],
    fun h => by simp [nextDeadline, not_lt.mpr h],
    by simp [cycleWasLate],
    deadlineSeq_onTime interval ts deadline⟩

/-- Witness for C7: interval 10, jitter tolerance 1; an on-time cycle at 5, a
re-anchored cycle at 25, and three on-time cycles at 5, 12, 25 accumulating
three intervals. -/
theorem scheduler_deadline_discipline_witness :
    nextDeadline 0 10 5 = 0 + 10 ∧
    nextDeadline 0 10 25 = 25 + 10 ∧
    (cycleWasLate 0 1 5 = true ↔ (0 : ℚ) + 1 < 5) ∧
    deadlineSeq 0 10 [5, 12, 25] = 0 + ([5, 12, 25] : List ℚ).length * 10 := by
  refine ⟨(scheduler_deadline_discipline 0 10 1 5 []).1 (by norm_num),
    (scheduler_deadline_discipline 0 10 1 25 []).2.1 (by norm_num),
    (scheduler_deadline_discipline 0 10 1 5 []).2.2.1,
    (scheduler_deadline_discipline 0 10 1 0 [5, 12, 25]).2.2.2 ?_⟩
  norm_num [allCyclesOnTime, nextDeadline]

/-- Claim C8.  Calling the fusion engine `update()` while the global odometry
state is absent (no sensors configured) is a total no-op: it returns without
touching the state, for every sensor input and every model of the libm
functions. -/
theorem update_unconfigured_is_noop (ops : MathOps) (inp : OdomInputs) :
    odomUpdate ops inp none = none := rfl

/-- Claim C9.  For all inputs, `max_speed > 0` and
`0 <= min_speed <= max_speed`: neither output component exceeds `max_speed`
in magnitude; every nonzero output component has magnitude at least
`min_speed`; each output component has the sign of its input (zero maps to
zero, so the minimum-speed raise preserves sign); and when the larger input
magnitude exceeds `max_speed` the scaling stage multiplies both components by
one common positive factor. -/
theorem apply_speed_constraints_bounds (lateral angular max_speed min_speed : ℚ)
    (hmax : 0 < max_speed) (hmin0 : 0 ≤ min_speed)
    (hminmax : min_speed ≤ max_speed) :
    |(apply_speed_constraints lateral angular max_speed min_speed).1| ≤ max_speed ∧
    |(apply_speed_constraints lateral angular max_speed min_speed).2| ≤ max_speed ∧
    ((apply_speed_constraints lateral angular max_speed min_speed).1 ≠ 0 →
      min_speed ≤ |(apply_speed_constraints lateral angular max_speed min_speed).1|) ∧
    ((apply_speed_constraints lateral angular max_speed min_speed).2 ≠ 0 →
      min_speed ≤ |(apply_speed_constraints lateral angular max_speed min_speed).2|) ∧
    (0 < lateral → 0 < (apply_speed_constraints lateral angular max_speed min_speed).1) ∧
    (lateral < 0 → (apply_speed_constraints lateral angular max_speed min_speed).1 < 0) ∧
    (lateral = 0 → (apply_speed_constraints lateral angular max_speed min_speed).1 = 0) ∧
    (0 < angular → 0 < (apply_speed_constraints lateral angular max_speed min_speed).2) ∧
    (angular < 0 → (apply_speed_constraints lateral angular max_speed min_speed).2 < 0) ∧
    (angular = 0 → (apply_speed_constraints lateral angular max_speed min_speed).2 = 0) ∧
    (max_speed < max |lateral| |angular| →
      ∃ c, 0 < c ∧ scaleToMaxSpeed lateral angular max_speed =
        (c * lateral, c * angular)) := by
  obtain ⟨habs1, habs2⟩ := scaleToMaxSpeed_abs_le lateral angular max_speed hmax
  obtain ⟨c, hc, hsc⟩ := scaleToMaxSpeed_comm lateral angular max_speed hmax
  have h1 : (scaleToMaxSpeed lateral angular max_speed).1 = c * lateral := by rw [hsc]
  have h2 : (scaleToMaxSpeed lateral angular max_speed).2 = c * angular := by rw [hsc]
  unfold apply_speed_constraints raiseToMinSpeed
  by_cases hms : 0 < min_speed
  · rw [if_pos hms]
    refine ⟨raiseComp_abs_le _ _ _ habs1 hminmax,
      raiseComp_abs_le _ _ _ habs2 hminmax,
      raiseComp_min _ _ hmin0, raiseComp_min _ _ hmin0,
      fun hl => raiseComp_pos _ _ (by rw [h1]; exact mul_pos hc hl),
      fun hl => raiseComp_neg _ _ (by rw [h1]; exact mul_neg_of_pos_of_neg hc hl),
      fun hl => by rw [show (scaleToMaxSpeed lateral angular max_speed).1 = 0 by
        rw [h1, hl, mul_zero], raiseComp_of_zero],
      fun ha => raiseComp_pos _ _ (by rw [h2]; exact mul_pos hc ha),
      fun ha => raiseComp_neg _ _ (by rw [h2]; exact mul_neg_of_pos_of_neg hc ha),
      fun ha => by rw [show (scaleToMaxSpeed lateral angular max_speed).2 = 0 by
        rw [h2, ha, mul_zero], raiseComp_of_zero],
      fun _ => ⟨c, hc, hsc⟩⟩
  · rw [if_neg hms]
    have hm0 : min_speed = 0 := le_antisymm (not_lt.mp hms) hmin0
    refine ⟨habs1, habs2,
      fun _ => hm0 ▸ abs_nonneg _, fun _ => hm0 ▸ abs_nonneg _,
      fun hl => by rw [h1]; exact mul_pos hc hl,
      fun hl => by rw [h1]; exact mul_neg_of_pos_of_neg hc hl,
      fun hl => by rw [h1, hl, mul_zero],
      fun ha => by rw [h2]; exact mul_pos hc ha,
      fun ha => by rw [h2]; exact mul_neg_of_pos_of_neg hc ha,
      fun ha => by rw [h2, ha, mul_zero],
      fun _ => ⟨c, hc, hsc⟩⟩

/-- Witness for C9: inputs (200, -50) with max speed 100 and min speed 30 —
the pair is scaled by 1/2 to (100, -25) and the angular component is then
raised to -30. -/
theorem apply_speed_constraints_bounds_witness :
    |(apply_speed_constraints 200 (-50) 100 30).1| ≤ 100 ∧
    |(apply_speed_constraints 200 (-50) 100 30).2| ≤ 100 ∧
    ((apply_speed_constraints 200 (-50) 100 30).1 ≠ 0 →
      (30 : ℚ) ≤ |(apply_speed_constraints 200 (-50) 100 30).1|) ∧
    ((apply_speed_constraints 200 (-50) 100 30).2 ≠ 0 →
      (30 : ℚ) ≤ |(apply_speed_constraints 200 (-50) 100 30).2|) ∧
    (0 < (200 : ℚ) → 0 < (apply_speed_constraints 200 (-50) 100 30).1) ∧
    ((-50 : ℚ) < 0 → (apply_speed_constraints 200 (-50) 100 30).2 < 0) ∧
    ((100 : ℚ) < max |(200 : ℚ)| |(-50 : ℚ)| →
      ∃ c, 0 < c ∧ scaleToMaxSpeed 200 (-50) 100 = (c * 200, c * -50)) := by
  have h := apply_speed_constraints_bounds 200 (-50) 100 30 (by norm_num)
    (by norm_num) (by norm_num)
  exact ⟨h.1, h.2.1, h.2.2.1, h.2.2.2.1, fun _ => h.2.2.2.2.1 (by norm_num),
    fun _ => h.2.2.2.2.2.2.2.2.1 (by norm_num), fun hm => h.2.2.2.2.2.2.2.2.2.2 hm⟩

/-- Claim C10.  The claim asserts that `angle_error` terminates for every
pair of finite `f64` angles.  Run in `f64` arithmetic it does not: at
`current = 0.0`, `target = 1e17` the initial error `target - current` is
exactly `1e17` (first conjunct); the binary64 grid spacing at `1e17` is 16
and `2π < 8`, so one iteration of the first normalization loop rounds
`error - 2.0 * PI` back to `error` unchanged (second conjunct); hence the
loop never exits, for any number of iterations (third conjunct).  This
contradicts the function's own documentation, which promises a returned
value in `[-π, π]`; the exact-arithmetic normalization is total
(`angle_error_range_exact`), so the hang is purely a rounding effect. -/
theorem angle_error_f64_nontermination :
    fl64 ((10 : ℚ) ^ 17 - 0) = 10 ^ 17 ∧
    fl64 ((10 : ℚ) ^ 17 - 2 * pi64) = 10 ^ 17 ∧
    ∀ n : ℕ, wrapAbovePiF64 n ((10 : ℚ) ^ 17) = none := by
  have h2 : fl64 ((10 : ℚ) ^ 17 - 2 * pi64) = 10 ^ 17 := by
    have hgv : ((2 : ℚ) ^ ((56 : ℤ) - 52)) = 16 := by norm_num
    have hfl : ⌊((10 : ℚ) ^ 17 - 2 * pi64) / 2 ^ ((56 : ℤ) - 52)⌋ =
        6249999999999999 := by
      rw [hgv, Int.floor_eq_iff]
      constructor <;> norm_num [pi64]
    have hfr : 1/2 < ((10 : ℚ) ^ 17 - 2 * pi64) / 2 ^ ((56 : ℤ) - 52) -
        (6249999999999999 : ℤ) := by
      rw [hgv]
      norm_num [pi64]
    rw [fl64_eval_up _ 56 6249999999999999 (by norm_num [pi64])
      (int_log_two_eq _ 56 (by norm_num [pi64]) (by norm_num [pi64])
        (by norm_num [pi64])) hfl hfr]
    norm_num
  refine ⟨?_, h2, wrapAbovePiF64_stuck _ h2 (by norm_num [pi64])⟩
  rw [sub_zero]
  exact fl64_eval_exact ((10 : ℚ) ^ 17) 56 6250000000000000 (by norm_num)
    (int_log_two_eq _ 56 (by norm_num) (by norm_num) (by norm_num))
    (by norm_num)

end GravLib
